import Mathlib

/-!
Shallow embedding of `drivers/gpu/drm/msm/msm_gem_shrinker.c`: the msm GEM
shrinker (memory-pressure reclaim engine).  The shrinker entry points
(`msm_gem_shrinker_count`, `msm_gem_shrinker_scan`, `msm_gem_shrinker_vmap`)
and the reentrant lock guard (`msm_gem_shrinker_lock`) are translated
directly from the C source.  The object-manager primitives they call
(`is_purgeable`, `is_vunmapable`, `msm_gem_purge`, `msm_gem_vunmap`, defined
in `msm_gem.h` / `msm_gem.c`, which are outside the given fragment) are
modelled from the specification's data model.
-/

/-- Modelled from the spec: the three-valued discard-advice hint carried by a
tracked object (`msm_obj->madv` in the source, whose definition is outside the
given fragment): willing-to-discard, keep, do-not-need. -/
inductive Madv where
  | willingToDiscard
  | keep
  | doNotNeed
deriving DecidableEq

/-- Modelled from the spec: one tracked GPU object (`struct msm_gem_object`,
defined outside the given fragment), with the attributes the reclaim engine
reads: byte size (`base.size`), discard-advice, reference/pin count, whether
backing storage is present (residency), and whether a virtual mapping is
present. -/
structure msm_gem_object where
  size : Nat
  madv : Madv
  refCount : Nat
  resident : Bool
  vaddr : Bool
deriving DecidableEq

/-- Page shift used by `size >> PAGE_SHIFT` (4 KiB pages). -/
def PAGE_SHIFT : Nat := 12

/-- `SHRINK_STOP` is `~0UL`: the sentinel a scan callback returns when it
cannot make progress. -/
def SHRINK_STOP : Nat := 2 ^ 64 - 1

/-- `NOTIFY_DONE`: the acknowledgment code a notifier callback returns. -/
def NOTIFY_DONE : Nat := 0

/-- Modelled from the spec: storage-purge eligibility (`is_purgeable`, defined
in `msm_gem.h`, outside the given fragment): discard-advice is
willing-to-discard, reference count is 0, and backing storage is present. -/
def is_purgeable (o : msm_gem_object) : Bool :=
  decide (o.madv = Madv.willingToDiscard) && (o.refCount == 0) && o.resident

/-- Modelled from the spec: mapping-unmap eligibility (`is_vunmapable`,
defined in `msm_gem.h`, outside the given fragment): a virtual mapping is
present and the reference count is 0. -/
def is_vunmapable (o : msm_gem_object) : Bool :=
  o.vaddr && (o.refCount == 0)

/-- Modelled from the spec: `msm_gem_purge` (defined in `msm_gem.c`, outside
the given fragment) releases the object's backing storage, marking it
non-resident. -/
def msm_gem_purge (o : msm_gem_object) : msm_gem_object :=
  { o with resident := false }

/-- Modelled from the spec: `msm_gem_vunmap` (defined in `msm_gem.c`, outside
the given fragment) revokes the object's virtual mapping; backing storage
remains intact. -/
def msm_gem_vunmap (o : msm_gem_object) : msm_gem_object :=
  { o with vaddr := false }

/-- State of `dev->struct_mutex`: free, or held by the execution context with
the given owner id. -/
inductive LockState where
  | free
  | heldBy (owner : Nat)
deriving DecidableEq

/-- The three outcomes of `mutex_trylock_recursive`. -/
inductive TrylockResult where
  | failed
  | success
  | recursive
deriving DecidableEq

/-- `mutex_trylock_recursive(&dev->struct_mutex)` from the execution context
`ctx`: acquires a free lock, recognises a lock already held by `ctx`, and
fails without blocking when the lock is held by another context. -/
def mutex_trylock_recursive (ctx : Nat) (m : LockState) : TrylockResult × LockState :=
  match m with
  | LockState.free => (TrylockResult.success, LockState.heldBy ctx)
  | LockState.heldBy owner =>
      if owner = ctx then (TrylockResult.recursive, m) else (TrylockResult.failed, m)

/-- `mutex_unlock(&dev->struct_mutex)`. -/
def mutex_unlock (_m : LockState) : LockState :=
  LockState.free

/-- `msm_gem_shrinker_lock(dev, &unlock)`: returns (granted, unlock, new lock
state), switching on `mutex_trylock_recursive` exactly as the source does.
On failure the `unlock` out-parameter is not written by the source; it is
returned as `false` here and is irrelevant to callers. -/
def msm_gem_shrinker_lock (ctx : Nat) (m : LockState) : Bool × Bool × LockState :=
  match mutex_trylock_recursive ctx m with
  | (TrylockResult.failed, m2) => (false, false, m2)
  | (TrylockResult.success, m2) => (true, true, m2)
  | (TrylockResult.recursive, m2) => (true, false, m2)

/-- The shared state the shrinker reads and writes: the inactive collection
(`priv->inactive_list`) and the global lock (`dev->struct_mutex`). -/
structure msm_drm_private where
  inactive_list : List msm_gem_object
  struct_mutex : LockState
deriving DecidableEq

/-- The `list_for_each_entry` loop of `msm_gem_shrinker_count`: sums
`msm_obj->base.size >> PAGE_SHIFT` over purgeable objects. -/
def countLoop : List msm_gem_object → Nat → Nat
  | [], count => count
  | o :: rest, count =>
      countLoop rest (if is_purgeable o then count + (o.size >>> PAGE_SHIFT) else count)

/-- `msm_gem_shrinker_count(shrinker, sc)` invoked from execution context
`ctx`: returns the count together with the resulting shared state. -/
def msm_gem_shrinker_count (ctx : Nat) (priv : msm_drm_private) :
    Nat × msm_drm_private :=
  match msm_gem_shrinker_lock ctx priv.struct_mutex with
  | (false, _, m) => (0, { priv with struct_mutex := m })
  | (true, unlock, m) =>
      let count := countLoop priv.inactive_list 0
      let m2 := if unlock then mutex_unlock m else m
      (count, { priv with struct_mutex := m2 })

/-- The `list_for_each_entry` loop of `msm_gem_shrinker_scan`: breaks as soon
as `freed >= sc->nr_to_scan`, otherwise purges each purgeable object and adds
its size in pages to `freed`.  Returns the resulting list and `freed`. -/
def scanLoop (nr_to_scan : Nat) : List msm_gem_object → Nat → List msm_gem_object × Nat
  | [], freed => ([], freed)
  | o :: rest, freed =>
      if nr_to_scan ≤ freed then (o :: rest, freed)
      else if is_purgeable o then
        let r := scanLoop nr_to_scan rest (freed + (o.size >>> PAGE_SHIFT))
        (msm_gem_purge o :: r.1, r.2)
      else
        let r := scanLoop nr_to_scan rest freed
        (o :: r.1, r.2)

/-- `msm_gem_shrinker_scan(shrinker, sc)` invoked from execution context
`ctx` with `sc->nr_to_scan = nr_to_scan`: returns `freed` (or `SHRINK_STOP`
when the lock guard fails) together with the resulting shared state. -/
def msm_gem_shrinker_scan (ctx : Nat) (priv : msm_drm_private) (nr_to_scan : Nat) :
    Nat × msm_drm_private :=
  match msm_gem_shrinker_lock ctx priv.struct_mutex with
  | (false, _, m) => (SHRINK_STOP, { priv with struct_mutex := m })
  | (true, unlock, m) =>
      let r := scanLoop nr_to_scan priv.inactive_list 0
      let m2 := if unlock then mutex_unlock m else m
      (r.2, { inactive_list := r.1, struct_mutex := m2 })

/-- The `list_for_each_entry` loop of `msm_gem_shrinker_vmap`: unmaps each
vunmappable object and breaks when `++unmapped >= 15`.  Returns the resulting
list and `unmapped`. -/
def vmapLoop : List msm_gem_object → Nat → List msm_gem_object × Nat
  | [], unmapped => ([], unmapped)
  | o :: rest, unmapped =>
      if is_vunmapable o then
        if 15 ≤ unmapped + 1 then (msm_gem_vunmap o :: rest, unmapped + 1)
        else
          let r := vmapLoop rest (unmapped + 1)
          (msm_gem_vunmap o :: r.1, r.2)
      else
        let r := vmapLoop rest unmapped
        (o :: r.1, r.2)

/-- `msm_gem_shrinker_vmap(nb, event, ptr)` invoked from execution context
`ctx`, where `ptr` is the caller-supplied accumulator: returns
(`NOTIFY_DONE`, new accumulator value, resulting shared state). -/
def msm_gem_shrinker_vmap (ctx : Nat) (priv : msm_drm_private) (ptr : Nat) :
    Nat × Nat × msm_drm_private :=
  match msm_gem_shrinker_lock ctx priv.struct_mutex with
  | (false, _, m) => (NOTIFY_DONE, ptr, { priv with struct_mutex := m })
  | (true, unlock, m) =>
      let r := vmapLoop priv.inactive_list 0
      let m2 := if unlock then mutex_unlock m else m
      (NOTIFY_DONE, ptr + r.2, { inactive_list := r.1, struct_mutex := m2 })

/-- The two teardown actions `msm_gem_shrinker_cleanup` can perform. -/
inductive CleanupAction where
  | unregisterVmapPurgeNotifier
  | shrinkerFree
deriving DecidableEq

/-- `msm_gem_shrinker_cleanup(dev)`: if `priv->shrinker` is non-null it
unregisters the vmap-purge notifier and frees the shrinker, in that order;
otherwise it does nothing.  Returns the list of actions performed. -/
def msm_gem_shrinker_cleanup (shrinker : Option Unit) : List CleanupAction :=
  match shrinker with
  | none => []
  | some _ => [CleanupAction.unregisterVmapPurgeNotifier, CleanupAction.shrinkerFree]

/-- The capacity estimate as the spec words it: the sum, over all objects of
the inactive collection satisfying the storage-purge eligibility predicate,
of the object's size in whole allocation units. -/
def estimate_reclaimable_spec (l : List msm_gem_object) : Nat :=
  ((l.filter (fun o => is_purgeable o)).map (fun o => o.size >>> PAGE_SHIFT)).sum

/-- Number of loop iterations (objects examined, the breaking iteration
included) performed by the `msm_gem_shrinker_scan` loop. -/
def scanVisited (nr_to_scan : Nat) : List msm_gem_object → Nat → Nat
  | [], _ => 0
  | o :: rest, freed =>
      if nr_to_scan ≤ freed then 1
      else if is_purgeable o then 1 + scanVisited nr_to_scan rest (freed + (o.size >>> PAGE_SHIFT))
      else 1 + scanVisited nr_to_scan rest freed

/-- Number of loop iterations (objects examined, the breaking iteration
included) performed by the `msm_gem_shrinker_vmap` loop. -/
def vmapVisited : List msm_gem_object → Nat → Nat
  | [], _ => 0
  | o :: rest, unmapped =>
      if is_vunmapable o then
        if 15 ≤ unmapped + 1 then 1 else 1 + vmapVisited rest (unmapped + 1)
      else 1 + vmapVisited rest unmapped

/-- The largest per-object unit size among purgeable objects of a list. -/
def maxPurgeableUnits (l : List msm_gem_object) : Nat :=
  l.foldr (fun o m => if is_purgeable o then max (o.size >>> PAGE_SHIFT) m else m) 0

/-! Helper lemmas about the loops. -/

theorem scanLoop_of_le (nr : Nat) (l : List msm_gem_object) (freed : Nat)
    (h : nr ≤ freed) : scanLoop nr l freed = (l, freed) := by
  cases l with
  | nil => rfl
  | cons o rest => simp [scanLoop, h]

theorem scanLoop_append (nr : Nat) (l1 l2 : List msm_gem_object) (freed : Nat) :
    scanLoop nr (l1 ++ l2) freed =
      ((scanLoop nr l1 freed).1 ++ (scanLoop nr l2 (scanLoop nr l1 freed).2).1,
       (scanLoop nr l2 (scanLoop nr l1 freed).2).2) := by
  induction l1 generalizing freed with
  | nil => simp [scanLoop]
  | cons o rest ih =>
      by_cases h : nr ≤ freed
      · rw [scanLoop_of_le nr ((o :: rest) ++ l2) freed h,
          scanLoop_of_le nr (o :: rest) freed h]
        simp [scanLoop_of_le nr l2 freed h]
      · by_cases hp : is_purgeable o
        · simp [scanLoop, h, hp, ih]
        · simp [scanLoop, h, hp, ih]

theorem countLoop_append (l1 l2 : List msm_gem_object) (c : Nat) :
    countLoop (l1 ++ l2) c = countLoop l2 (countLoop l1 c) := by
  induction l1 generalizing c with
  | nil => rfl
  | cons o rest ih => simp [countLoop, ih]

theorem countLoop_eq_spec (l : List msm_gem_object) (c : Nat) :
    countLoop l c = c + estimate_reclaimable_spec l := by
  induction l generalizing c with
  | nil => simp [countLoop, estimate_reclaimable_spec]
  | cons o rest ih =>
      by_cases hp : is_purgeable o
      · simp [countLoop, hp, ih, estimate_reclaimable_spec]
        omega
      · simp [countLoop, hp, ih, estimate_reclaimable_spec]

theorem vmapLoop_le_15 (l : List msm_gem_object) (u : Nat) (h : u < 15) :
    (vmapLoop l u).2 ≤ 15 := by
  induction l generalizing u with
  | nil => exact Nat.le_of_lt h
  | cons o rest ih =>
      by_cases hv : is_vunmapable o
      · by_cases hc : 15 ≤ u + 1
        · simp [vmapLoop, hv, hc]
          omega
        · simp [vmapLoop, hv, hc]
          exact ih (u + 1) (by omega)
      · simp [vmapLoop, hv]
        exact ih u h

theorem countLoop_skips_not_purgeable (o : msm_gem_object) (hp : is_purgeable o = false)
    (l1 l2 : List msm_gem_object) (c : Nat) :
    countLoop (l1 ++ o :: l2) c = countLoop (l1 ++ l2) c := by
  rw [countLoop_append, countLoop_append]
  simp [countLoop, hp]

theorem scanLoop_keeps_not_purgeable (nr : Nat) (o : msm_gem_object)
    (hp : is_purgeable o = false) (l1 l2 : List msm_gem_object) (freed : Nat) :
    ∃ l1' l2', (scanLoop nr (l1 ++ o :: l2) freed).1 = l1' ++ o :: l2' ∧
      l1'.length = l1.length := by
  induction l1 generalizing freed with
  | nil =>
      by_cases h : nr ≤ freed
      · exact ⟨[], l2, by simp [scanLoop, h], rfl⟩
      · exact ⟨[], (scanLoop nr l2 freed).1, by simp [scanLoop, h, hp], rfl⟩
  | cons a rest ih =>
      by_cases h : nr ≤ freed
      · refine ⟨a :: rest, l2, ?_, rfl⟩
        rw [scanLoop_of_le nr ((a :: rest) ++ o :: l2) freed h]
      · by_cases ha : is_purgeable a
        · obtain ⟨l1', l2', he, hl⟩ := ih (freed + (a.size >>> PAGE_SHIFT))
          exact ⟨msm_gem_purge a :: l1', l2', by simp [scanLoop, h, ha, he], by simp [hl]⟩
        · obtain ⟨l1', l2', he, hl⟩ := ih freed
          exact ⟨a :: l1', l2', by simp [scanLoop, h, ha, he], by simp [hl]⟩

theorem vmapLoop_keeps_not_vunmapable (o : msm_gem_object)
    (hv : is_vunmapable o = false) (l1 l2 : List msm_gem_object) (u : Nat) :
    ∃ l1' l2', (vmapLoop (l1 ++ o :: l2) u).1 = l1' ++ o :: l2' ∧
      l1'.length = l1.length := by
  induction l1 generalizing u with
  | nil => exact ⟨[], (vmapLoop l2 u).1, by simp [vmapLoop, hv], rfl⟩
  | cons a rest ih =>
      by_cases ha : is_vunmapable a
      · by_cases hc : 15 ≤ u + 1
        · exact ⟨msm_gem_vunmap a :: rest, l2, by simp [vmapLoop, ha, hc], by simp⟩
        · obtain ⟨l1', l2', he, hl⟩ := ih (u + 1)
          exact ⟨msm_gem_vunmap a :: l1', l2', by simp [vmapLoop, ha, hc, he], by simp [hl]⟩
      · obtain ⟨l1', l2', he, hl⟩ := ih u
        exact ⟨a :: l1', l2', by simp [vmapLoop, ha, he], by simp [hl]⟩

theorem scanLoop_lt_add_max (nr : Nat) (l : List msm_gem_object) (freed : Nat)
    (h : freed < nr) : (scanLoop nr l freed).2 < nr + maxPurgeableUnits l := by
  induction l generalizing freed with
  | nil =>
      simp [scanLoop]
      omega
  | cons o rest ih =>
      have hnb : ¬ nr ≤ freed := by omega
      by_cases hp : is_purgeable o
      · by_cases h2 : freed + (o.size >>> PAGE_SHIFT) < nr
        · have hrec := ih (freed + (o.size >>> PAGE_SHIFT)) h2
          simp only [scanLoop, if_neg hnb, if_pos hp, maxPurgeableUnits, List.foldr]
          simp only [maxPurgeableUnits] at hrec
          simp [hp]
          omega
        · have hstop : scanLoop nr rest (freed + (o.size >>> PAGE_SHIFT)) =
              (rest, freed + (o.size >>> PAGE_SHIFT)) :=
            scanLoop_of_le nr rest _ (by omega)
          simp only [scanLoop, if_neg hnb, if_pos hp, hstop, maxPurgeableUnits, List.foldr]
          simp [hp]
          omega
      · have hrec := ih freed h
        simp only [scanLoop, if_neg hnb, if_neg hp, maxPurgeableUnits, List.foldr]
        simp only [maxPurgeableUnits] at hrec
        simp [hp]
        omega

theorem scanVisited_le_length (nr : Nat) (l : List msm_gem_object) (freed : Nat) :
    scanVisited nr l freed ≤ l.length := by
  induction l generalizing freed with
  | nil => simp [scanVisited]
  | cons o rest ih =>
      by_cases h : nr ≤ freed
      · simp [scanVisited, h]
      · by_cases hp : is_purgeable o
        · have := ih (freed + (o.size >>> PAGE_SHIFT))
          simp [scanVisited, h, hp]
          omega
        · have := ih freed
          simp [scanVisited, h, hp]
          omega

theorem vmapVisited_le_length (l : List msm_gem_object) (u : Nat) :
    vmapVisited l u ≤ l.length := by
  induction l generalizing u with
  | nil => simp [vmapVisited]
  | cons o rest ih =>
      by_cases hv : is_vunmapable o
      · by_cases hc : 15 ≤ u + 1
        · simp [vmapVisited, hv, hc]
        · have := ih (u + 1)
          simp [vmapVisited, hv, hc]
          omega
      · have := ih u
        simp [vmapVisited, hv]
        omega

theorem is_purgeable_of_refcount_pos (o : msm_gem_object) (h : 0 < o.refCount) :
    is_purgeable o = false := by
  have hb : (o.refCount == 0) = false := by
    simp
    omega
  simp [is_purgeable, hb]

theorem is_vunmapable_of_refcount_pos (o : msm_gem_object) (h : 0 < o.refCount) :
    is_vunmapable o = false := by
  have hb : (o.refCount == 0) = false := by
    simp
    omega
  simp [is_vunmapable, hb]

theorem estimate_reclaimable_spec_cons (o : msm_gem_object) (l : List msm_gem_object) :
    estimate_reclaimable_spec (o :: l) =
      (if is_purgeable o then o.size >>> PAGE_SHIFT else 0) + estimate_reclaimable_spec l := by
  by_cases hp : is_purgeable o <;> simp [estimate_reclaimable_spec, hp]

theorem scanLoop_le_estimate (nr : Nat) (l : List msm_gem_object) (freed : Nat) :
    (scanLoop nr l freed).2 ≤ freed + estimate_reclaimable_spec l := by
  induction l generalizing freed with
  | nil => simp [scanLoop]
  | cons o rest ih =>
      by_cases h : nr ≤ freed
      · simp [scanLoop, h]
      · by_cases hp : is_purgeable o
        · have := ih (freed + (o.size >>> PAGE_SHIFT))
          simp only [scanLoop, if_neg h, if_pos hp, estimate_reclaimable_spec_cons]
          simp [hp]
          omega
        · have := ih freed
          simp only [scanLoop, if_neg h, if_neg hp, estimate_reclaimable_spec_cons]
          simp [hp]
          omega

theorem msm_gem_shrinker_lock_on_free (ctx : Nat) :
    msm_gem_shrinker_lock ctx LockState.free = (true, true, LockState.heldBy ctx) := rfl

theorem msm_gem_shrinker_lock_on_self (ctx : Nat) :
    msm_gem_shrinker_lock ctx (LockState.heldBy ctx) =
      (true, false, LockState.heldBy ctx) := by
  simp [msm_gem_shrinker_lock, mutex_trylock_recursive]

theorem msm_gem_shrinker_lock_on_contended (ctx owner : Nat) (h : owner ≠ ctx) :
    msm_gem_shrinker_lock ctx (LockState.heldBy owner) =
      (false, false, LockState.heldBy owner) := by
  simp [msm_gem_shrinker_lock, mutex_trylock_recursive, h]

theorem count_on_free (ctx : Nat) (l : List msm_gem_object) :
    msm_gem_shrinker_count ctx ⟨l, LockState.free⟩ =
      (countLoop l 0, ⟨l, LockState.free⟩) := by
  simp [msm_gem_shrinker_count, msm_gem_shrinker_lock_on_free, mutex_unlock]

theorem count_on_self (ctx : Nat) (l : List msm_gem_object) :
    msm_gem_shrinker_count ctx ⟨l, LockState.heldBy ctx⟩ =
      (countLoop l 0, ⟨l, LockState.heldBy ctx⟩) := by
  simp [msm_gem_shrinker_count, msm_gem_shrinker_lock_on_self]

theorem count_on_contended (ctx owner : Nat) (h : owner ≠ ctx) (l : List msm_gem_object) :
    msm_gem_shrinker_count ctx ⟨l, LockState.heldBy owner⟩ =
      (0, ⟨l, LockState.heldBy owner⟩) := by
  simp [msm_gem_shrinker_count, msm_gem_shrinker_lock_on_contended ctx owner h]

theorem scan_on_free (ctx nr : Nat) (l : List msm_gem_object) :
    msm_gem_shrinker_scan ctx ⟨l, LockState.free⟩ nr =
      ((scanLoop nr l 0).2, ⟨(scanLoop nr l 0).1, LockState.free⟩) := by
  simp [msm_gem_shrinker_scan, msm_gem_shrinker_lock_on_free, mutex_unlock]

theorem scan_on_self (ctx nr : Nat) (l : List msm_gem_object) :
    msm_gem_shrinker_scan ctx ⟨l, LockState.heldBy ctx⟩ nr =
      ((scanLoop nr l 0).2, ⟨(scanLoop nr l 0).1, LockState.heldBy ctx⟩) := by
  simp [msm_gem_shrinker_scan, msm_gem_shrinker_lock_on_self]

theorem scan_on_contended (ctx owner : Nat) (h : owner ≠ ctx) (nr : Nat)
    (l : List msm_gem_object) :
    msm_gem_shrinker_scan ctx ⟨l, LockState.heldBy owner⟩ nr =
      (SHRINK_STOP, ⟨l, LockState.heldBy owner⟩) := by
  simp [msm_gem_shrinker_scan, msm_gem_shrinker_lock_on_contended ctx owner h]

theorem vmap_on_free (ctx : Nat) (l : List msm_gem_object) (ptr : Nat) :
    msm_gem_shrinker_vmap ctx ⟨l, LockState.free⟩ ptr =
      (NOTIFY_DONE, ptr + (vmapLoop l 0).2, ⟨(vmapLoop l 0).1, LockState.free⟩) := by
  simp [msm_gem_shrinker_vmap, msm_gem_shrinker_lock_on_free, mutex_unlock]

theorem vmap_on_self (ctx : Nat) (l : List msm_gem_object) (ptr : Nat) :
    msm_gem_shrinker_vmap ctx ⟨l, LockState.heldBy ctx⟩ ptr =
      (NOTIFY_DONE, ptr + (vmapLoop l 0).2, ⟨(vmapLoop l 0).1, LockState.heldBy ctx⟩) := by
  simp [msm_gem_shrinker_vmap, msm_gem_shrinker_lock_on_self]

theorem vmap_on_contended (ctx owner : Nat) (h : owner ≠ ctx) (l : List msm_gem_object)
    (ptr : Nat) :
    msm_gem_shrinker_vmap ctx ⟨l, LockState.heldBy owner⟩ ptr =
      (NOTIFY_DONE, ptr, ⟨l, LockState.heldBy owner⟩) := by
  simp [msm_gem_shrinker_vmap, msm_gem_shrinker_lock_on_contended ctx owner h]

/-- Scenario object A: 4 allocation units, purgeable. -/
def objA : msm_gem_object := ⟨4 * 4096, Madv.willingToDiscard, 0, true, false⟩

/-- Scenario object B: 2 allocation units, purgeable. -/
def objB : msm_gem_object := ⟨2 * 4096, Madv.willingToDiscard, 0, true, false⟩

/-- Scenario object C: 8 allocation units, purgeable. -/
def objC : msm_gem_object := ⟨8 * 4096, Madv.willingToDiscard, 0, true, false⟩

/-- Scenario state: inactive collection [A, B, C], lock free. -/
def privABC : msm_drm_private := ⟨[objA, objB, objC], LockState.free⟩

/-- A vunmappable object: mapping present, reference count 0. -/
def vObj : msm_gem_object := ⟨4096, Madv.keep, 0, true, true⟩

/-- Scenario state: 20 vunmappable inactive objects, lock free. -/
def priv20 : msm_drm_private := ⟨List.replicate 20 vObj, LockState.free⟩

/-- An object that is neither purgeable nor vunmappable (advice = keep, no
mapping). -/
def keepObj : msm_gem_object := ⟨4096, Madv.keep, 0, true, false⟩

/-- An object pinned by a nonzero reference count. -/
def pinnedObj : msm_gem_object := ⟨4096, Madv.willingToDiscard, 1, true, true⟩

/-- C1: whenever the storage-purge pass acquires the lock, objects of the
inactive collection are considered in order and the pass stops as soon as the
running total reaches or exceeds the requested budget: if the total
accumulated over the prefix `l1` already reaches `nr`, the whole suffix `l2`
is left untouched, and the returned total is the prefix's total. -/
theorem msm_gem_shrinker_scan_budget_monotonic (ctx nr : Nat)
    (priv : msm_drm_private) (l1 l2 : List msm_gem_object)
    (hsplit : priv.inactive_list = l1 ++ l2)
    (hlock : priv.struct_mutex = LockState.free ∨
      priv.struct_mutex = LockState.heldBy ctx)
    (hbudget : nr ≤ (scanLoop nr l1 0).2) :
    (msm_gem_shrinker_scan ctx priv nr).2.inactive_list = (scanLoop nr l1 0).1 ++ l2 ∧
    (msm_gem_shrinker_scan ctx priv nr).1 = (scanLoop nr l1 0).2 := by
  obtain ⟨l, m⟩ := priv
  simp only at hsplit hlock
  subst hsplit
  have hcore : scanLoop nr (l1 ++ l2) 0 =
      ((scanLoop nr l1 0).1 ++ l2, (scanLoop nr l1 0).2) := by
    rw [scanLoop_append, scanLoop_of_le nr l2 _ hbudget]
  rcases hlock with rfl | rfl
  · rw [scan_on_free]
    simp [hcore]
  · rw [scan_on_self]
    simp [hcore]

/-- Witness for C1: on [A(4u), B(2u), C(8u)] all purgeable, scan with budget
5 purges A and B, leaves C untouched, and returns 6. -/
theorem msm_gem_shrinker_scan_budget_monotonic_witness :
    (msm_gem_shrinker_scan 0 privABC 5).2.inactive_list =
      [msm_gem_purge objA, msm_gem_purge objB, objC] ∧
    (msm_gem_shrinker_scan 0 privABC 5).1 = 6 := by
  have h := msm_gem_shrinker_scan_budget_monotonic 0 5 privABC [objA, objB] [objC]
    rfl (Or.inl rfl) (by decide)
  refine ⟨?_, ?_⟩
  · rw [h.1]
    decide
  · rw [h.2]
    decide

/-- C2: the reentrant lock guard's three-way contract: a free lock is
acquired and reported (granted, caller must release); a lock already held by
the calling context succeeds without double-acquiring (granted, caller must
not release); a lock held by a different context fails immediately leaving
the lock unchanged; and these three cases cover every lock state. -/
theorem msm_gem_shrinker_lock_contract (ctx : Nat) (m : LockState) :
    (m = LockState.free →
      msm_gem_shrinker_lock ctx m = (true, true, LockState.heldBy ctx)) ∧
    (m = LockState.heldBy ctx →
      msm_gem_shrinker_lock ctx m = (true, false, LockState.heldBy ctx)) ∧
    (∀ owner, owner ≠ ctx → m = LockState.heldBy owner →
      (msm_gem_shrinker_lock ctx m).1 = false ∧
      (msm_gem_shrinker_lock ctx m).2.2 = m) ∧
    (m = LockState.free ∨ m = LockState.heldBy ctx ∨
      ∃ owner, owner ≠ ctx ∧ m = LockState.heldBy owner) := by
  refine ⟨?_, ?_, ?_, ?_⟩
  · rintro rfl
    exact msm_gem_shrinker_lock_on_free ctx
  · rintro rfl
    exact msm_gem_shrinker_lock_on_self ctx
  · rintro owner hne rfl
    rw [msm_gem_shrinker_lock_on_contended ctx owner hne]
    exact ⟨rfl, rfl⟩
  · cases m with
    | free => exact Or.inl rfl
    | heldBy owner =>
        by_cases h : owner = ctx
        · subst h
          exact Or.inr (Or.inl rfl)
        · exact Or.inr (Or.inr ⟨owner, h, rfl⟩)

/-- Witness for C2: the three outcomes at concrete lock states, from context
0 (contending owner 1). -/
theorem msm_gem_shrinker_lock_contract_witness :
    msm_gem_shrinker_lock 0 LockState.free = (true, true, LockState.heldBy 0) ∧
    msm_gem_shrinker_lock 0 (LockState.heldBy 0) = (true, false, LockState.heldBy 0) ∧
    (msm_gem_shrinker_lock 0 (LockState.heldBy 1)).1 = false :=
  ⟨(msm_gem_shrinker_lock_contract 0 LockState.free).1 rfl,
   (msm_gem_shrinker_lock_contract 0 (LockState.heldBy 0)).2.1 rfl,
   ((msm_gem_shrinker_lock_contract 0 (LockState.heldBy 1)).2.2.1 1
     (by decide) rfl).1⟩

/-- C3: a single mapping-unmap pass never adds more than 15 to the
caller-supplied accumulator, no matter the state; and with 20 vunmappable
inactive objects the first pass unmaps exactly 15 (accumulator 100 becomes
115) and a second pass on the resulting state unmaps the remaining 5
(accumulator 115 becomes 120). -/
theorem msm_gem_shrinker_vmap_cap :
    (∀ ctx (priv : msm_drm_private) ptr,
      (msm_gem_shrinker_vmap ctx priv ptr).2.1 ≤ ptr + 15) ∧
    (msm_gem_shrinker_vmap 0 priv20 100).2.1 = 115 ∧
    (msm_gem_shrinker_vmap 0 (msm_gem_shrinker_vmap 0 priv20 100).2.2 115).2.1 = 120 := by
  refine ⟨?_, by decide, by decide⟩
  intro ctx priv ptr
  obtain ⟨l, m⟩ := priv
  have hcap := vmapLoop_le_15 l 0 (by omega)
  cases m with
  | free =>
      rw [vmap_on_free]
      simpa using hcap
  | heldBy owner =>
      by_cases h : owner = ctx
      · subst h
        rw [vmap_on_self]
        simpa using hcap
      · rw [vmap_on_contended ctx owner h]
        simp

/-- C4: an object whose reference/pin count is positive is never selected by
any of the three entry points: it fails both eligibility predicates, the
count loop does not add it to the reclaimable total, and the scan and unmap
loops return it unchanged at its position in the collection. -/
theorem refcount_positive_never_selected (o : msm_gem_object)
    (h : 0 < o.refCount) :
    is_purgeable o = false ∧ is_vunmapable o = false ∧
    (∀ l1 l2 c, countLoop (l1 ++ o :: l2) c = countLoop (l1 ++ l2) c) ∧
    (∀ nr l1 l2 freed, ∃ l1' l2',
      (scanLoop nr (l1 ++ o :: l2) freed).1 = l1' ++ o :: l2' ∧
      l1'.length = l1.length) ∧
    (∀ l1 l2 u, ∃ l1' l2',
      (vmapLoop (l1 ++ o :: l2) u).1 = l1' ++ o :: l2' ∧
      l1'.length = l1.length) := by
  have hp := is_purgeable_of_refcount_pos o h
  have hv := is_vunmapable_of_refcount_pos o h
  exact ⟨hp, hv,
    fun l1 l2 c => countLoop_skips_not_purgeable o hp l1 l2 c,
    fun nr l1 l2 freed => scanLoop_keeps_not_purgeable nr o hp l1 l2 freed,
    fun l1 l2 u => vmapLoop_keeps_not_vunmapable o hv l1 l2 u⟩

/-- Witness for C4: a pinned object (reference count 1) with
willing-to-discard advice, backing storage and a mapping present fails both
predicates and is not counted. -/
theorem refcount_positive_never_selected_witness :
    is_purgeable pinnedObj = false ∧ is_vunmapable pinnedObj = false ∧
    countLoop ([] ++ pinnedObj :: []) 0 = countLoop ([] ++ []) 0 := by
  have h := refcount_positive_never_selected pinnedObj (by decide)
  exact ⟨h.1, h.2.1, h.2.2.1 [] [] 0⟩

/-- C5: when the lock is held by a different context, every entry point
returns immediately with its documented no-op result and mutates nothing:
the count returns 0, the scan returns SHRINK_STOP, and the unmap pass leaves
the accumulator unchanged while still returning NOTIFY_DONE; the shared
state is returned unchanged in all three cases. -/
theorem fail_fast_under_contention (ctx owner : Nat) (priv : msm_drm_private)
    (ptr : Nat) (hne : owner ≠ ctx)
    (hm : priv.struct_mutex = LockState.heldBy owner) :
    msm_gem_shrinker_count ctx priv = (0, priv) ∧
    (∀ nr, msm_gem_shrinker_scan ctx priv nr = (SHRINK_STOP, priv)) ∧
    msm_gem_shrinker_vmap ctx priv ptr = (NOTIFY_DONE, ptr, priv) := by
  obtain ⟨l, m⟩ := priv
  simp only at hm
  subst hm
  exact ⟨count_on_contended ctx owner hne l,
    fun nr => scan_on_contended ctx owner hne nr l,
    vmap_on_contended ctx owner hne l ptr⟩

/-- Witness for C5: context 0 against a lock held by context 1. -/
theorem fail_fast_under_contention_witness :
    msm_gem_shrinker_count 0 ⟨[objA], LockState.heldBy 1⟩ =
      (0, ⟨[objA], LockState.heldBy 1⟩) ∧
    msm_gem_shrinker_scan 0 ⟨[objA], LockState.heldBy 1⟩ 7 =
      (SHRINK_STOP, ⟨[objA], LockState.heldBy 1⟩) ∧
    msm_gem_shrinker_vmap 0 ⟨[objA], LockState.heldBy 1⟩ 3 =
      (NOTIFY_DONE, 3, ⟨[objA], LockState.heldBy 1⟩) := by
  have h := fail_fast_under_contention 0 1 ⟨[objA], LockState.heldBy 1⟩ 3
    (by decide) rfl
  exact ⟨h.1, h.2.1 7, h.2.2⟩

/-- C6: whenever the lock guard grants access (lock free or already held by
the calling context) the capacity estimator returns exactly the sum of
`size >> PAGE_SHIFT` over the inactive objects satisfying the storage-purge
eligibility predicate, and when the lock is held by another context it
returns 0. -/
theorem msm_gem_shrinker_count_correct (ctx : Nat) (priv : msm_drm_private) :
    (priv.struct_mutex = LockState.free →
      (msm_gem_shrinker_count ctx priv).1 =
        estimate_reclaimable_spec priv.inactive_list) ∧
    (priv.struct_mutex = LockState.heldBy ctx →
      (msm_gem_shrinker_count ctx priv).1 =
        estimate_reclaimable_spec priv.inactive_list) ∧
    (∀ owner, owner ≠ ctx → priv.struct_mutex = LockState.heldBy owner →
      (msm_gem_shrinker_count ctx priv).1 = 0) := by
  obtain ⟨l, m⟩ := priv
  refine ⟨?_, ?_, ?_⟩
  · intro hm
    simp only at hm
    subst hm
    rw [count_on_free]
    simpa using countLoop_eq_spec l 0
  · intro hm
    simp only at hm
    subst hm
    rw [count_on_self]
    simpa using countLoop_eq_spec l 0
  · intro owner hne hm
    simp only at hm
    subst hm
    rw [count_on_contended ctx owner hne]

/-- Witness for C6: on [A(4u), B(2u), C(8u)] with a free lock the estimator
returns 14; with the lock held by context 1 it returns 0. -/
theorem msm_gem_shrinker_count_correct_witness :
    (msm_gem_shrinker_count 0 privABC).1 =
      estimate_reclaimable_spec privABC.inactive_list ∧
    (msm_gem_shrinker_count 0 ⟨[objA], LockState.heldBy 1⟩).1 = 0 ∧
    (msm_gem_shrinker_count 0 privABC).1 = 14 :=
  ⟨(msm_gem_shrinker_count_correct 0 privABC).1 rfl,
   (msm_gem_shrinker_count_correct 0 ⟨[objA], LockState.heldBy 1⟩).2.2 1
     (by decide) rfl,
   by decide⟩

/-- C7: the capacity estimator is pure with respect to object state: for
every context and every state it returns the shared state (inactive
collection, every object's attributes, and the lock, which it releases only
if it acquired it) exactly as it found it. -/
theorem msm_gem_shrinker_count_pure (ctx : Nat) (priv : msm_drm_private) :
    (msm_gem_shrinker_count ctx priv).2 = priv := by
  obtain ⟨l, m⟩ := priv
  cases m with
  | free => rw [count_on_free]
  | heldBy owner =>
      by_cases h : owner = ctx
      · subst h
        rw [count_on_self]
      · rw [count_on_contended ctx owner h]

/-- C8 counterexample: the claim "the freed total never exceeds
requested_units" is false: on [A(4u), B(2u), C(8u)] all purgeable,
scan(5) returns 6 > 5. -/
theorem msm_gem_shrinker_scan_overshoots :
    (msm_gem_shrinker_scan 0 privABC 5).1 = 6 ∧
    ¬(msm_gem_shrinker_scan 0 privABC 5).1 ≤ 5 := by
  decide

/-- C8 amended: the budget is an upper target in the sense that scan stops
purging as soon as it is reached, so the freed total (when the lock is
granted) exceeds the budget by less than the largest purgeable object's unit
size, and never exceeds the total reclaimable estimate — in particular it is
fewer than requested when not enough remains eligible. -/
theorem msm_gem_shrinker_scan_upper_target (ctx nr : Nat)
    (priv : msm_drm_private) (hnr : 0 < nr) :
    (msm_gem_shrinker_scan ctx priv nr).1 = SHRINK_STOP ∨
    ((msm_gem_shrinker_scan ctx priv nr).1 <
        nr + maxPurgeableUnits priv.inactive_list ∧
     (msm_gem_shrinker_scan ctx priv nr).1 ≤
        estimate_reclaimable_spec priv.inactive_list) := by
  obtain ⟨l, m⟩ := priv
  cases m with
  | free =>
      right
      rw [scan_on_free]
      exact ⟨by simpa using scanLoop_lt_add_max nr l 0 hnr,
        by simpa using scanLoop_le_estimate nr l 0⟩
  | heldBy owner =>
      by_cases h : owner = ctx
      · subst h
        right
        rw [scan_on_self]
        exact ⟨by simpa using scanLoop_lt_add_max nr l 0 hnr,
          by simpa using scanLoop_le_estimate nr l 0⟩
      · left
        rw [scan_on_contended ctx owner h]

/-- Witness for C8 amended: the scenario state with budget 5: 6 < 5 + 8 and
6 ≤ 14. -/
theorem msm_gem_shrinker_scan_upper_target_witness :
    (msm_gem_shrinker_scan 0 privABC 5).1 = SHRINK_STOP ∨
    ((msm_gem_shrinker_scan 0 privABC 5).1 <
        5 + maxPurgeableUnits privABC.inactive_list ∧
     (msm_gem_shrinker_scan 0 privABC 5).1 ≤
        estimate_reclaimable_spec privABC.inactive_list) :=
  msm_gem_shrinker_scan_upper_target 0 5 privABC (by decide)

/-- C9 counterexample: with budget fixed at 1 and no eligible object, the
scan loop examines every object of the inactive collection — 40 iterations
on a 40-object collection, 80 on an 80-object one — so its work grows with
collection size even when the budget is small, exceeding any
budget-plus-fixed-cap bound such as nr_to_scan + 15. -/
theorem scan_work_grows_with_collection :
    scanVisited 1 (List.replicate 40 keepObj) 0 = 40 ∧
    scanVisited 1 (List.replicate 80 keepObj) 0 = 80 ∧
    ¬scanVisited 1 (List.replicate 80 keepObj) 0 ≤ 1 + 15 := by
  decide

/-- C9 amended: every invocation of either pass terminates after examining
each object of the inactive collection at most once (work bounded by
collection size), the unmap pass performs at most 15 unmap operations, and
the purge pass stops purging once the budget is met; but the work is not
bounded by the budget alone. -/
theorem reclaim_passes_bounded_work :
    (∀ nr l freed, scanVisited nr l freed ≤ l.length) ∧
    (∀ l u, vmapVisited l u ≤ l.length) ∧
    (∀ l, (vmapLoop l 0).2 ≤ 15) ∧
    (∀ nr l freed, nr ≤ freed → scanLoop nr l freed = (l, freed)) :=
  ⟨scanVisited_le_length, vmapVisited_le_length,
   fun l => vmapLoop_le_15 l 0 (by omega),
   fun nr l freed h => scanLoop_of_le nr l freed h⟩

/-- C10: teardown on a device whose shrinker handle is null performs no
unregistration at all — neither the notifier unregister nor the shrinker
free — and returns normally. -/
theorem msm_gem_shrinker_cleanup_null :
    msm_gem_shrinker_cleanup none = [] := rfl
